import Mathlib

/-!
Verification of the run-polling and conversation-evaluation workflow shared by
the three observability example scripts:

* `evaluate-azure-ai-agent-qauality.py`
* `tracing-example-ai-agent-service.py`
* `tracing-example-langgraph.py`

Each script is straight-line glue code: create remote resources, poll a Run
until it reaches a terminal status, print or persist the transcript, evaluate
it, and delete the created Agent.  The embedding models each script as a
function from an explicit "world" (environment-variable map, the sequence of
Run statuses returned by successive `runs.get` calls, the listed messages) to
the sequence of observable events the script performs together with its
termination result.  `none` models divergence (the unbounded polling loop
never observing a terminal status).
-/

namespace Observability

/-- The non-terminal Run statuses from the polling loops
(`evaluate-azure-ai-agent-qauality.py` line 63,
`tracing-example-ai-agent-service.py` line 96):
`["queued", "in_progress", "requires_action"]`. -/
def activeStatuses : List String := ["queued", "in_progress", "requires_action"]

/-- `run.status in ["queued", "in_progress", "requires_action"]`. -/
def isActive (s : String) : Bool := activeStatuses.contains s

/-- Observable actions performed by the scripts: environment accesses, remote
service calls, the fixed one-second sleep, the transcript file write, and
textual output. -/
inductive Event where
  | envRead (name : String)
  | setEnv (name value : String)
  | getConnectionString
  | configureMonitor
  | createAgent
  | createThread
  | listThreads
  | createMessage
  | createRun
  | getRun
  | sleep
  | listMessages
  | prepareEvalData
  | writeFile
  | evaluateCall
  | deleteAgent
  | modelInit
  | setupGraph
  | streamGraph
  | print (s : String)
  deriving DecidableEq, Repr

/-- How a script terminates: normal completion, `exit()`, or an uncaught
`KeyError` from `os.environ[name]` on a missing variable. -/
inductive ScriptResult where
  | ok
  | exited
  | keyError (name : String)
  deriving DecidableEq, Repr

/-- Remote-service calls (network operations against the hosted agent,
evaluation or telemetry services), as opposed to local effects. -/
def isRemoteEvent : Event → Bool
  | .getConnectionString => true
  | .createAgent => true
  | .createThread => true
  | .listThreads => true
  | .createMessage => true
  | .createRun => true
  | .getRun => true
  | .listMessages => true
  | .prepareEvalData => true
  | .evaluateCall => true
  | .deleteAgent => true
  | _ => false

/-- The polling loop common to both agent scripts
(`evaluate-azure-ai-agent-qauality.py` lines 63-66,
`tracing-example-ai-agent-service.py` lines 96-101):

    while run.status in ["queued", "in_progress", "requires_action"]:
        time.sleep(1)
        run = agent_client.runs.get(thread_id=thread.id, run_id=run.id)
        print(f"Run status: {run.status}")

`status` is the current `run.status`; `oracle` is the sequence of statuses the
remote service returns to successive `runs.get` calls.  Returns the events
performed and the final (terminal) status, or `none` when the oracle is
exhausted while the status is still active — modelling the loop never
terminating. -/
def pollBlock (s : String) : List Event :=
  [Event.sleep, Event.getRun, Event.print ("Run status: " ++ s)]

/-- See `pollBlock`: the loop itself.  Each iteration performs the fixed wait,
the single `runs.get` call, and the status print for the newly observed
status. -/
def pollLoop : String → List String → Option (List Event × String)
  | status, [] =>
    if isActive status then none else some ([], status)
  | status, s :: rest =>
    if isActive status then
      (pollLoop s rest).map fun p => (pollBlock s ++ p.1, p.2)
    else
      some ([], status)

/-! ## Environment variables -/

/-- The process environment, as a shadowing association list: the value of a
variable is the first binding for its name.  `getenv` models both
`os.getenv(name)` / `os.environ.get(name)` (returning `none` when absent) and
the lookup performed by `os.environ[name]` (whose caller raises `KeyError`
when the result is `none`). -/
def getenv (env : List (String × String)) (name : String) : Option String :=
  (env.find? fun p => p.1 == name).map Prod.snd

/-- `os.environ[name] = value`: bind `name`, shadowing any earlier binding. -/
def envSet (env : List (String × String)) (name value : String) :
    List (String × String) :=
  (name, value) :: env

/-- The content-recording feature flag assigned at startup by both tracing
scripts (`tracing-example-ai-agent-service.py` line 35,
`tracing-example-langgraph.py` line 72). -/
def contentFlag : String := "AZURE_TRACING_GEN_AI_CONTENT_RECORDING_ENABLED"

/-- The environment after `tracing-example-ai-agent-service.py` line 35:
`os.environ["AZURE_TRACING_GEN_AI_CONTENT_RECORDING_ENABLED"] = "true"`,
executed unconditionally after `load_dotenv()`. -/
def tracingStartupEnv (env : List (String × String)) : List (String × String) :=
  envSet env contentFlag "true"

/-- The environment after `tracing-example-langgraph.py` line 72: the same
unconditional assignment of the content-recording flag to `"true"`. -/
def langgraphStartupEnv (env : List (String × String)) : List (String × String) :=
  envSet env contentFlag "true"

/-! ## Messages and the transcript-printing loop -/

/-- A Message as observed by the scripts: its `role` and the text values of
its `text_messages` segments. -/
structure Msg where
  role : String
  text_messages : List String
  deriving DecidableEq, Repr

/-- The message-printing loop common to both agent scripts
(`evaluate-azure-ai-agent-qauality.py` lines 73-76,
`tracing-example-ai-agent-service.py` lines 111-114):

    for msg in messages:
        if msg.text_messages:
            last_text = msg.text_messages[-1]
            print(f"{msg.role}: {last_text.text.value}")

The truthiness guard `if msg.text_messages:` is emptiness of the segment
list; `[-1]` is its last element. -/
def messagesLoop : List Msg → List Event
  | [] => []
  | m :: rest =>
    if m.text_messages.isEmpty then
      messagesLoop rest
    else
      Event.print (m.role ++ ": " ++ m.text_messages.getLastD "") :: messagesLoop rest

/-! ## The three scripts as world-indexed event traces -/

/-- The world observed by `evaluate-azure-ai-agent-qauality.py`: the process
environment, the `run.status` returned by `runs.create`, the statuses
returned by successive `runs.get` calls, the rendering of `run.last_error`,
and the Thread's messages in ascending order. -/
structure EvalWorld where
  env : List (String × String)
  createdStatus : String
  statusOracle : List String
  lastError : String
  msgs : List Msg
  deriving DecidableEq, Repr

/-- The world observed by `tracing-example-ai-agent-service.py`: additionally
the telemetry connection string returned by
`ai_project.telemetry.get_connection_string()` (`none` for Python `None`). -/
structure TraceWorld where
  env : List (String × String)
  connStr : Option String
  createdStatus : String
  statusOracle : List String
  lastError : String
  msgs : List Msg
  deriving DecidableEq, Repr

/-- The world observed by `tracing-example-langgraph.py` up to and including
the telemetry check; the LangGraph interaction that follows is modelled as
coarse events not depending on further world state. -/
structure GraphWorld where
  env : List (String × String)
  connStr : Option String
  deriving DecidableEq, Repr

/-- Python falsiness of the fetched connection string
(`if not connection_string:`): `None` or the empty string. -/
def falsyConnStr : Option String → Bool
  | none => true
  | some s => s.isEmpty

/-- The instructional message printed when Application Insights is not
enabled (`tracing-example-ai-agent-service.py` line 49,
`tracing-example-langgraph.py` line 86). -/
def appInsightsMsg : String :=
  "Application Insights is not enabled. Enable by going to Tracing in your Azure AI Foundry project."

/-- `evaluate-azure-ai-agent-qauality.py` as a trace of events and a
termination result.  Mirrors the source order: endpoint read and client
construction (lines 28-36), agent creation reading
`os.environ["AZURE_OPENAI_MODEL_DEPLOYMENT"]` (lines 39-44, the environment
lookup happens before the remote call since call arguments are evaluated
first), thread/message/run creation (47-60), the polling loop (63-66), the
failed-status check (68-69), message listing and printing (72-76),
evaluation-data preparation and file write (79-86), the model configuration
reading three `os.environ` values (89-94), evaluator construction (97-105,
local), `evaluate` (108-112), agent deletion (115), and the final prints
(118-119).  `none` models the polling loop never terminating. -/
def evaluateScript (w : EvalWorld) : Option (List Event × ScriptResult) :=
  let e0 := [Event.envRead "AZURE_AI_FOUNDRY_PROJECT_ENDPOINT",
             Event.envRead "AZURE_OPENAI_MODEL_DEPLOYMENT"]
  match getenv w.env "AZURE_OPENAI_MODEL_DEPLOYMENT" with
  | none => some (e0, .keyError "AZURE_OPENAI_MODEL_DEPLOYMENT")
  | some _ =>
    let e1 := e0 ++ [Event.createAgent, Event.print "Created agent",
                     Event.createThread, Event.createMessage, Event.print "Created message",
                     Event.createRun, Event.print "Run ID"]
    (pollLoop w.createdStatus w.statusOracle).map fun p =>
      let e2 := e1 ++ p.1 ++
        (if p.2 = "failed" then [Event.print ("Run error: " ++ w.lastError)] else [])
      let e3 := e2 ++ [Event.listMessages] ++ messagesLoop w.msgs ++
        [Event.prepareEvalData, Event.writeFile, Event.print "Evaluation data saved"]
      match getenv w.env "AZURE_OPENAI_SERVICE" with
      | none => (e3 ++ [Event.envRead "AZURE_OPENAI_SERVICE"],
                 ScriptResult.keyError "AZURE_OPENAI_SERVICE")
      | some _ =>
        match getenv w.env "AZURE_OPENAI_API_KEY" with
        | none => (e3 ++ [Event.envRead "AZURE_OPENAI_SERVICE",
                          Event.envRead "AZURE_OPENAI_API_KEY"],
                   ScriptResult.keyError "AZURE_OPENAI_API_KEY")
        | some _ =>
          match getenv w.env "AZURE_OPENAI_CHATGPT_DEPLOYMENT" with
          | none => (e3 ++ [Event.envRead "AZURE_OPENAI_SERVICE",
                            Event.envRead "AZURE_OPENAI_API_KEY",
                            Event.envRead "AZURE_OPENAI_CHATGPT_DEPLOYMENT"],
                     ScriptResult.keyError "AZURE_OPENAI_CHATGPT_DEPLOYMENT")
          | some _ =>
            (e3 ++ [Event.envRead "AZURE_OPENAI_SERVICE",
                    Event.envRead "AZURE_OPENAI_API_KEY",
                    Event.envRead "AZURE_OPENAI_CHATGPT_DEPLOYMENT",
                    Event.envRead "AZURE_AI_FOUNDRY_PROJECT_ENDPOINT",
                    Event.evaluateCall, Event.deleteAgent,
                    Event.print "AI Foundry URL", Event.print "metrics"],
             ScriptResult.ok)

/-- `tracing-example-ai-agent-service.py` as a trace of events and a
termination result.  Mirrors the source order: the content-recording flag
assignment (line 35), client construction reading the endpoint (38-42),
connection-string fetch and falsiness check with `exit()` (44-50),
`configure_azure_monitor` (53), agent/thread creation and thread listing
(60-82), message and run creation (86-93), the polling loop (96-101), the
failed-status check (103-104), agent deletion (106-107), then message
listing and printing (110-114). -/
def tracingScript (w : TraceWorld) : Option (List Event × ScriptResult) :=
  let e0 := [Event.setEnv contentFlag "true",
             Event.envRead "AZURE_AI_FOUNDRY_PROJECT_ENDPOINT",
             Event.getConnectionString]
  if falsyConnStr w.connStr then
    some (e0 ++ [Event.print appInsightsMsg], .exited)
  else
    let e1 := e0 ++ [Event.configureMonitor, Event.createAgent,
                     Event.print "Created agent", Event.createThread,
                     Event.print "Created thread", Event.listThreads,
                     Event.createMessage, Event.print "Created message",
                     Event.createRun]
    (pollLoop w.createdStatus w.statusOracle).map fun p =>
      let e2 := e1 ++ p.1 ++
        (if p.2 = "failed" then [Event.print ("Run error: " ++ w.lastError)] else [])
      (e2 ++ [Event.deleteAgent, Event.print "Deleted agent",
              Event.listMessages] ++ messagesLoop w.msgs,
       ScriptResult.ok)

/-- `tracing-example-langgraph.py` as a trace of events and a termination
result.  Mirrors the source order: the content-recording flag assignment
(line 72), client construction reading the endpoint (75-79),
connection-string fetch and falsiness check with `exit()` (81-87),
`configure_azure_monitor` (90), `AzureChatOpenAI` model construction reading
two environment values via `os.getenv` (99-104), and `main()` (157-172):
graph setup and the streamed test question.  No polling loop occurs, so the
script is total. -/
def langgraphScript (w : GraphWorld) : List Event × ScriptResult :=
  let e0 := [Event.setEnv contentFlag "true",
             Event.envRead "AZURE_AI_FOUNDRY_PROJECT_ENDPOINT",
             Event.getConnectionString]
  if falsyConnStr w.connStr then
    (e0 ++ [Event.print appInsightsMsg], .exited)
  else
    (e0 ++ [Event.configureMonitor,
            Event.envRead "AZURE_OPENAI_CHATGPT_DEPLOYMENT",
            Event.envRead "AZURE_OPENAI_SERVICE",
            Event.modelInit,
            Event.print "Initializing agent", Event.setupGraph,
            Event.print "Agent ready", Event.streamGraph],
     ScriptResult.ok)

/-- The trace of an optionally-diverging script run (empty on divergence). -/
def scriptTrace (o : Option (List Event × ScriptResult)) : List Event :=
  (o.map Prod.fst).getD []

/-- The termination result of an optionally-diverging script run. -/
def scriptResult (o : Option (List Event × ScriptResult)) : Option ScriptResult :=
  o.map Prod.snd

/-! ## The persisted transcript file

`evaluate-azure-ai-agent-qauality.py` lines 83-85:

    with open(filename, "w", encoding='utf-8') as f:
        for obj in evaluation_data:
            f.write(json.dumps(obj, ensure_ascii=False) + '\n')

The records are JSON-like values.  `dumps` models the Python standard
library's `json.dumps(obj, ensure_ascii=False)` with default separators:
strings are quoted with `"`, backslash and the known control characters get
their two-character escapes, the remaining control characters get `\u00xx`,
and every character at or above `0x20` — in particular every non-ASCII
character — is emitted literally. -/

/-- Hexadecimal digit characters, used for `\u00xx` escapes. -/
def hexDigit (n : Nat) : Char :=
  "0123456789abcdef".data.getD n '0'

/-- The encoding of one character inside a JSON string, per CPython's
`json.encoder.py_encode_basestring` (the `ensure_ascii=False` encoder). -/
def escChar (c : Char) : List Char :=
  if c = '\\' then ['\\', '\\']
  else if c = '"' then ['\\', '"']
  else if c = '\x08' then ['\\', 'b']
  else if c = '\x0c' then ['\\', 'f']
  else if c = '\n' then ['\\', 'n']
  else if c = '\r' then ['\\', 'r']
  else if c = '\t' then ['\\', 't']
  else if c.toNat < 0x20 then
    ['\\', 'u', '0', '0', hexDigit (c.toNat / 16), hexDigit (c.toNat % 16)]
  else [c]

/-- A JSON string literal: quotes around the escaped characters. -/
def encStr (s : String) : List Char :=
  ['"'] ++ (s.data.map escChar).flatten ++ ['"']

/-- Decimal digits of a natural number, most significant first. -/
def natChars (n : Nat) : List Char :=
  if _h : n < 10 then [hexDigit n]
  else natChars (n / 10) ++ [hexDigit (n % 10)]
termination_by n
decreasing_by exact Nat.div_lt_self (by omega) (by omega)

/-- Decimal rendering of an integer. -/
def intChars : Int → List Char
  | .ofNat n => natChars n
  | .negSucc n => '-' :: natChars (n + 1)

mutual

/-- A JSON-like evaluation record value: string, integer, array or object. -/
inductive JVal where
  | str (s : String)
  | num (n : Int)
  | arr (elems : JArr)
  | obj (fields : JObj)

/-- A list of JSON values (array elements). -/
inductive JArr where
  | nil
  | cons (hd : JVal) (tl : JArr)

/-- A list of key-value pairs (object fields). -/
inductive JObj where
  | nil
  | cons (key : String) (v : JVal) (tl : JObj)

end

mutual

/-- `json.dumps(obj, ensure_ascii=False)` with the default separators
`", "` and `": "`, as a character list. -/
def dumps : JVal → List Char
  | .str s => encStr s
  | .num n => intChars n
  | .arr xs => ['['] ++ dumpsArr xs ++ [']']
  | .obj fs => ['\x7b'] ++ dumpsObj fs ++ ['\x7d']

/-- Array elements, separated by `", "`. -/
def dumpsArr : JArr → List Char
  | .nil => []
  | .cons v .nil => dumps v
  | .cons v (.cons w tl) => dumps v ++ [',', ' '] ++ dumpsArr (.cons w tl)

/-- Object fields, `key: value` separated by `", "`. -/
def dumpsObj : JObj → List Char
  | .nil => []
  | .cons k v .nil => encStr k ++ [':', ' '] ++ dumps v
  | .cons k v (.cons k2 v2 tl) =>
    encStr k ++ [':', ' '] ++ dumps v ++ [',', ' '] ++ dumpsObj (.cons k2 v2 tl)

end

mutual

/-- All characters of all strings (including object keys) in a record. -/
def strChars : JVal → List Char
  | .str s => s.data
  | .num _ => []
  | .arr xs => strCharsArr xs
  | .obj fs => strCharsObj fs

/-- `strChars` over array elements. -/
def strCharsArr : JArr → List Char
  | .nil => []
  | .cons v tl => strChars v ++ strCharsArr tl

/-- `strChars` over object fields. -/
def strCharsObj : JObj → List Char
  | .nil => []
  | .cons k v tl => k.data ++ strChars v ++ strCharsObj tl

end

/-- The write loop of lines 84-85: one `json.dumps(obj, ensure_ascii=False)`
plus a newline appended to the file per record, in record order. -/
def writeLoop : List JVal → List Char
  | [] => []
  | r :: rest => (dumps r ++ ['\n']) ++ writeLoop rest

/-! ## The Evaluation Pipeline

The evaluator names fixed by `evaluate-azure-ai-agent-qauality.py`
lines 101-105. -/

/-- The keys of `used_evaluators`. -/
def usedEvaluatorNames : List String :=
  ["tool_call_accuracy", "intent_resolution", "task_adherence"]

/-- An evaluator relates the transcript records it consumes to the metric
value it returns; a possibly non-deterministic scorer is a relation. -/
def DeterministicEvaluator {α : Type} (e : List JVal → α → Prop) : Prop :=
  ∀ d m₁ m₂, e d m₁ → e d m₂ → m₁ = m₂

/-- Modelled from the spec: the `evaluate` call of
`evaluate-azure-ai-agent-qauality.py` lines 108-112 is performed by the
external evaluation library, whose internals are not part of this
repository.  Per the spec's Evaluation Pipeline contract, a run of the
pipeline on a transcript `file` with the named `evaluators` produces a report
holding, for each evaluator in order, its name paired with a metric value
that evaluator relates to the file's records. -/
def PipelineRun {α : Type} (file : List JVal)
    (evaluators : List (String × (List JVal → α → Prop)))
    (report : List (String × α)) : Prop :=
  List.Forall₂ (fun ev entry => entry.1 = ev.1 ∧ ev.2 file entry.2) evaluators report

/-- A world for `tracing-example-ai-agent-service.py` whose telemetry
connection string is absent. -/
def traceWorldNoTelemetry : TraceWorld :=
  ⟨[], none, "completed", [], "", []⟩

/-- A world for `tracing-example-langgraph.py` whose telemetry connection
string is absent. -/
def graphWorldNoTelemetry : GraphWorld := ⟨[], none⟩

/-- A world for the evaluation script whose Run fails after one poll and
whose environment carries every required variable. -/
def evalWorldFailed : EvalWorld :=
  ⟨[("AZURE_OPENAI_MODEL_DEPLOYMENT", "gpt"), ("AZURE_OPENAI_SERVICE", "svc"),
    ("AZURE_OPENAI_API_KEY", "key"), ("AZURE_OPENAI_CHATGPT_DEPLOYMENT", "chat")],
   "queued", ["failed"], "rate_limit", []⟩

/-- A world for the tracing script whose Run fails after one poll and whose
telemetry connection string is present. -/
def traceWorldFailed : TraceWorld :=
  ⟨[], some "ikey", "queued", ["failed"], "boom", []⟩

/-- A world for the evaluation script whose environment lacks
`AZURE_OPENAI_SERVICE` but carries everything needed before it. -/
def evalWorldNoService : EvalWorld :=
  ⟨[("AZURE_OPENAI_MODEL_DEPLOYMENT", "gpt"), ("AZURE_OPENAI_API_KEY", "key"),
    ("AZURE_OPENAI_CHATGPT_DEPLOYMENT", "chat")],
   "completed", [], "", []⟩

/-! ## Claims about Agent cleanup -/

/-- A world for the tracing script whose Run completes normally and whose
thread holds one user message. -/
def traceWorldCompleted : TraceWorld :=
  ⟨[], some "ikey", "queued", ["completed"], "", [⟨"user", ["hi"]⟩]⟩

theorem pollLoop_inactive (status : String) (oracle : List String)
    (h : isActive status = false) : pollLoop status oracle = some ([], status) := by
  cases oracle <;> simp [pollLoop, h]

theorem pollLoop_active_cons (status s : String) (rest : List String)
    (h : isActive status = true) :
    pollLoop status (s :: rest) =
      (pollLoop s rest).map fun p => (pollBlock s ++ p.1, p.2) := by
  simp [pollLoop, h]

/-- Full characterisation of the polling loop: when some observed status
(the creation status or an oracle entry) is terminal, the loop terminates;
its trace is one `pollBlock` per active observation, and the final status is
the first non-active observation. -/
theorem pollLoop_spec_aux (oracle : List String) : ∀ status : String,
    (∃ s ∈ status :: oracle, isActive s = false) →
    pollLoop status oracle =
      some (((oracle.take (((status :: oracle).takeWhile (fun s => isActive s)).length)).map
              pollBlock).flatten,
            (((status :: oracle).dropWhile (fun s => isActive s)).headD status)) := by
  induction oracle with
  | nil =>
    intro status h
    rcases h with ⟨s, hs, hterm⟩
    simp only [List.mem_singleton] at hs
    subst hs
    simp [pollLoop, hterm, List.takeWhile, List.dropWhile]
  | cons s rest ih =>
    intro status h
    cases hst : isActive status with
    | false =>
      simp [pollLoop, hst, List.takeWhile, List.dropWhile]
    | true =>
      have h' : ∃ x ∈ s :: rest, isActive x = false := by
        rcases h with ⟨x, hx, hxt⟩
        rcases List.mem_cons.mp hx with rfl | hx'
        · rw [hst] at hxt; cases hxt
        · exact ⟨x, hx', hxt⟩
      have hrec := ih s h'
      rw [pollLoop_active_cons status s rest hst, hrec]
      simp only [Option.map_some']
      have htake : (status :: s :: rest).takeWhile (fun x => isActive x) =
          status :: (s :: rest).takeWhile (fun x => isActive x) := by
        simp [List.takeWhile, hst]
      have hdrop : (status :: s :: rest).dropWhile (fun x => isActive x) =
          (s :: rest).dropWhile (fun x => isActive x) := by
        simp [List.dropWhile, hst]
      rw [htake, hdrop]
      simp only [List.length_cons, List.take_succ_cons, List.map_cons, List.flatten_cons]
      refine congrArg some (Prod.ext rfl ?_)
      rcases h' with ⟨x, hx, hxt⟩
      have : ((s :: rest).dropWhile (fun x => isActive x)) ≠ [] := by
        intro hnil
        have hall : ∀ y ∈ s :: rest, isActive y = true := by
          intro y hy
          have := List.dropWhile_eq_nil_iff.mp hnil
          simpa using this y hy
        rw [hall x hx] at hxt; cases hxt
      rcases List.exists_cons_of_ne_nil this with ⟨a, l, hal⟩
      simp [hal]

theorem hexDigit_ascii_ne_newline (n : Nat) :
    (hexDigit n).toNat < 128 ∧ hexDigit n ≠ '\n' := by
  by_cases hn : n < 16
  · interval_cases n <;> decide
  · unfold hexDigit
    rw [List.getD_eq_default]
    · decide
    · simpa using Nat.le_of_not_lt hn

theorem natChars_ascii_ne_newline (n : Nat) :
    ∀ c ∈ natChars n, c.toNat < 128 ∧ c ≠ '\n' := by
  induction n using Nat.strong_induction_on with
  | _ n ih =>
    intro c hc
    rw [natChars] at hc
    split at hc
    · simp only [List.mem_singleton] at hc
      subst hc
      exact hexDigit_ascii_ne_newline n
    · rcases List.mem_append.mp hc with hc' | hc'
      · exact ih (n / 10) (Nat.div_lt_self (by omega) (by omega)) c hc'
      · simp only [List.mem_singleton] at hc'
        subst hc'
        exact hexDigit_ascii_ne_newline (n % 10)

theorem intChars_ne_newline (n : Int) : ∀ c ∈ intChars n, c ≠ '\n' := by
  intro c hc
  cases n with
  | ofNat m => exact (natChars_ascii_ne_newline m c hc).2
  | negSucc m =>
    simp only [intChars, List.mem_cons] at hc
    rcases hc with rfl | hc
    · decide
    · exact (natChars_ascii_ne_newline (m + 1) c hc).2

theorem escChar_ne_newline (c : Char) : ∀ d ∈ escChar c, d ≠ '\n' := by
  intro d hd
  unfold escChar at hd
  split_ifs at hd with h1 h2 h3 h4 h5 h6 h7 h8 <;>
    simp only [List.mem_cons, List.not_mem_nil, or_false] at hd
  · rcases hd with rfl | rfl <;> decide
  · rcases hd with rfl | rfl <;> decide
  · rcases hd with rfl | rfl <;> decide
  · rcases hd with rfl | rfl <;> decide
  · rcases hd with rfl | rfl <;> decide
  · rcases hd with rfl | rfl <;> decide
  · rcases hd with rfl | rfl <;> decide
  · rcases hd with rfl | rfl | rfl | rfl | rfl | rfl
    · decide
    · decide
    · decide
    · decide
    · exact (hexDigit_ascii_ne_newline _).2
    · exact (hexDigit_ascii_ne_newline _).2
  · subst hd
    exact h5

theorem escChar_nonAscii (c : Char) (h : 128 ≤ c.toNat) : escChar c = [c] := by
  unfold escChar
  split_ifs with h1 h2 h3 h4 h5 h6 h7 h8
  · subst h1; exact absurd h (by decide)
  · subst h2; exact absurd h (by decide)
  · subst h3; exact absurd h (by decide)
  · subst h4; exact absurd h (by decide)
  · subst h5; exact absurd h (by decide)
  · subst h6; exact absurd h (by decide)
  · subst h7; exact absurd h (by decide)
  · omega
  · rfl

theorem encStr_ne_newline (s : String) : ∀ d ∈ encStr s, d ≠ '\n' := by
  intro d hd
  rcases List.mem_append.mp hd with hd' | hd'
  · rcases List.mem_append.mp hd' with hd'' | hd''
    · rw [List.mem_singleton.mp hd'']; decide
    · rcases List.mem_flatten.mp hd'' with ⟨l, hl, hdl⟩
      rcases List.mem_map.mp hl with ⟨c, _, rfl⟩
      exact escChar_ne_newline c d hdl
  · rw [List.mem_singleton.mp hd']; decide

theorem encStr_preserves (s : String) (c : Char) (hc : c ∈ s.data)
    (h : 128 ≤ c.toNat) : c ∈ encStr s := by
  refine List.mem_append.mpr (Or.inl (List.mem_append.mpr (Or.inr
    (List.mem_flatten.mpr ⟨escChar c, ?_, ?_⟩))))
  · exact List.mem_map_of_mem escChar hc
  · rw [escChar_nonAscii c h]; exact List.mem_singleton_self c

mutual

theorem dumps_ne_newline : ∀ v : JVal, ∀ c ∈ dumps v, c ≠ '\n'
  | .str s, c, hc => encStr_ne_newline s c hc
  | .num n, c, hc => intChars_ne_newline n c hc
  | .arr xs, c, hc => by
    simp only [dumps] at hc
    rcases List.mem_append.mp hc with hc' | hc'
    · rcases List.mem_append.mp hc' with hc'' | hc''
      · rw [List.mem_singleton.mp hc'']; decide
      · exact dumpsArr_ne_newline xs c hc''
    · rw [List.mem_singleton.mp hc']; decide
  | .obj fs, c, hc => by
    simp only [dumps] at hc
    rcases List.mem_append.mp hc with hc' | hc'
    · rcases List.mem_append.mp hc' with hc'' | hc''
      · rw [List.mem_singleton.mp hc'']; decide
      · exact dumpsObj_ne_newline fs c hc''
    · rw [List.mem_singleton.mp hc']; decide

theorem dumpsArr_ne_newline : ∀ xs : JArr, ∀ c ∈ dumpsArr xs, c ≠ '\n'
  | .nil, c, hc => by simp [dumpsArr] at hc
  | .cons v .nil, c, hc => dumps_ne_newline v c hc
  | .cons v (.cons w tl), c, hc => by
    simp only [dumpsArr] at hc
    rcases List.mem_append.mp hc with hc' | hc'
    · rcases List.mem_append.mp hc' with hc'' | hc''
      · exact dumps_ne_newline v c hc''
      · simp only [List.mem_cons, List.not_mem_nil, or_false] at hc''
        rcases hc'' with rfl | rfl <;> decide
    · exact dumpsArr_ne_newline (.cons w tl) c hc'

theorem dumpsObj_ne_newline : ∀ fs : JObj, ∀ c ∈ dumpsObj fs, c ≠ '\n'
  | .nil, c, hc => by simp [dumpsObj] at hc
  | .cons k v .nil, c, hc => by
    simp only [dumpsObj] at hc
    rcases List.mem_append.mp hc with hc' | hc'
    · rcases List.mem_append.mp hc' with hc'' | hc''
      · exact encStr_ne_newline k c hc''
      · simp only [List.mem_cons, List.not_mem_nil, or_false] at hc''
        rcases hc'' with rfl | rfl <;> decide
    · exact dumps_ne_newline v c hc'
  | .cons k v (.cons k2 v2 tl), c, hc => by
    simp only [dumpsObj] at hc
    rcases List.mem_append.mp hc with hc1 | hc1
    · rcases List.mem_append.mp hc1 with hc2 | hc2
      · rcases List.mem_append.mp hc2 with hc3 | hc3
        · rcases List.mem_append.mp hc3 with hc4 | hc4
          · exact encStr_ne_newline k c hc4
          · simp only [List.mem_cons, List.not_mem_nil, or_false] at hc4
            rcases hc4 with rfl | rfl <;> decide
        · exact dumps_ne_newline v c hc3
      · simp only [List.mem_cons, List.not_mem_nil, or_false] at hc2
        rcases hc2 with rfl | rfl <;> decide
    · exact dumpsObj_ne_newline (.cons k2 v2 tl) c hc1

end

mutual

theorem strChars_mem_dumps :
    ∀ v : JVal, ∀ c ∈ strChars v, 128 ≤ c.toNat → c ∈ dumps v
  | .str s, c, hc, h => encStr_preserves s c hc h
  | .num _, c, hc, _ => by simp [strChars] at hc
  | .arr xs, c, hc, h => by
    simp only [strChars] at hc
    simp only [dumps]
    exact List.mem_append.mpr (Or.inl (List.mem_append.mpr
      (Or.inr (strCharsArr_mem_dumpsArr xs c hc h))))
  | .obj fs, c, hc, h => by
    simp only [strChars] at hc
    simp only [dumps]
    exact List.mem_append.mpr (Or.inl (List.mem_append.mpr
      (Or.inr (strCharsObj_mem_dumpsObj fs c hc h))))

theorem strCharsArr_mem_dumpsArr :
    ∀ xs : JArr, ∀ c ∈ strCharsArr xs, 128 ≤ c.toNat → c ∈ dumpsArr xs
  | .nil, c, hc, _ => by simp [strCharsArr] at hc
  | .cons v .nil, c, hc, h => by
    simp only [strCharsArr, List.append_nil] at hc
    simp only [dumpsArr]
    exact strChars_mem_dumps v c hc h
  | .cons v (.cons w tl), c, hc, h => by
    simp only [strCharsArr] at hc
    simp only [dumpsArr]
    rcases List.mem_append.mp hc with hc' | hc'
    · exact List.mem_append.mpr (Or.inl (List.mem_append.mpr
        (Or.inl (strChars_mem_dumps v c hc' h))))
    · exact List.mem_append.mpr (Or.inr
        (strCharsArr_mem_dumpsArr (.cons w tl) c hc' h))

theorem strCharsObj_mem_dumpsObj :
    ∀ fs : JObj, ∀ c ∈ strCharsObj fs, 128 ≤ c.toNat → c ∈ dumpsObj fs
  | .nil, c, hc, _ => by simp [strCharsObj] at hc
  | .cons k v .nil, c, hc, h => by
    simp only [strCharsObj, List.append_nil] at hc
    simp only [dumpsObj]
    rcases List.mem_append.mp hc with hc' | hc'
    · exact List.mem_append.mpr (Or.inl (List.mem_append.mpr
        (Or.inl (encStr_preserves k c hc' h))))
    · exact List.mem_append.mpr (Or.inr (strChars_mem_dumps v c hc' h))
  | .cons k v (.cons k2 v2 tl), c, hc, h => by
    simp only [strCharsObj] at hc
    simp only [dumpsObj]
    rcases List.mem_append.mp hc with hc' | hc'
    · rcases List.mem_append.mp hc' with hc'' | hc''
      · exact List.mem_append.mpr (Or.inl (List.mem_append.mpr (Or.inl
          (List.mem_append.mpr (Or.inl (List.mem_append.mpr (Or.inl
            (encStr_preserves k c hc'' h))))))))
      · exact List.mem_append.mpr (Or.inl (List.mem_append.mpr (Or.inl
          (List.mem_append.mpr (Or.inr (strChars_mem_dumps v c hc'' h))))))
    · exact List.mem_append.mpr (Or.inr
        (strCharsObj_mem_dumpsObj (.cons k2 v2 tl) c hc' h))

end

theorem writeLoop_eq_flatten (records : List JVal) :
    writeLoop records = (records.map fun r => dumps r ++ ['\n']).flatten := by
  induction records with
  | nil => rfl
  | cons r rest ih => simp [writeLoop, ih]

/-! ## Trace-shape helper lemmas -/

theorem pollLoop_events {status : String} {oracle : List String}
    {tr : List Event} {fin : String}
    (h : pollLoop status oracle = some (tr, fin)) :
    ∀ e ∈ tr, e = Event.sleep ∨ e = Event.getRun ∨ ∃ s, e = Event.print s := by
  induction oracle generalizing status tr fin with
  | nil =>
    rw [pollLoop] at h
    split at h
    · cases h
    · intro e he
      have htr : ([] : List Event) = tr := congrArg Prod.fst (Option.some.inj h)
      rw [← htr] at he
      cases he
  | cons s rest ih =>
    rw [pollLoop] at h
    split at h
    · rcases Option.map_eq_some'.mp h with ⟨p, hp, hpe⟩
      have htr : pollBlock s ++ p.1 = tr := congrArg Prod.fst hpe
      intro e he
      rw [← htr] at he
      rcases List.mem_append.mp he with h1 | h2
      · simp only [pollBlock, List.mem_cons, List.not_mem_nil, or_false] at h1
        rcases h1 with rfl | rfl | rfl
        · exact Or.inl rfl
        · exact Or.inr (Or.inl rfl)
        · exact Or.inr (Or.inr ⟨_, rfl⟩)
      · exact ih hp e h2
    · intro e he
      have htr : ([] : List Event) = tr := congrArg Prod.fst (Option.some.inj h)
      rw [← htr] at he
      cases he

theorem count_sleep_pollBlocks (l : List String) :
    ((l.map pollBlock).flatten).count Event.sleep = l.length := by
  induction l with
  | nil => rfl
  | cons s rest ih =>
    simp only [List.map_cons, List.flatten_cons, List.count_append, ih]
    simp only [pollBlock, List.count_cons]
    simp
    omega

theorem count_getRun_pollBlocks (l : List String) :
    ((l.map pollBlock).flatten).count Event.getRun = l.length := by
  induction l with
  | nil => rfl
  | cons s rest ih =>
    simp only [List.map_cons, List.flatten_cons, List.count_append, ih]
    simp only [pollBlock, List.count_cons]
    simp
    omega

theorem messagesLoop_events (msgs : List Msg) :
    ∀ e ∈ messagesLoop msgs, ∃ s, e = Event.print s := by
  induction msgs with
  | nil => intro e he; cases he
  | cons m rest ih =>
    intro e he
    by_cases hm : m.text_messages.isEmpty
    · rw [messagesLoop, if_pos hm] at he
      exact ih e he
    · rw [messagesLoop, if_neg hm] at he
      rcases List.mem_cons.mp he with rfl | he'
      · exact ⟨_, rfl⟩
      · exact ih e he'

/-! ## Claims about the Run Poller -/

/-- C1: For every sequence of observed Run statuses that eventually contains
a terminal status, the Run Poller, starting from the status returned by run
creation, waits exactly one fixed interval and then issues exactly one
get-run call whenever the current status is in
queued/in_progress/requires_action; it stops at the first status outside that
set, and no get-run call or wait occurs after the first terminal
observation.  The trace is exactly one `pollBlock` (one wait, one get-run,
one status print) per active observation; the final status is the first
non-active observation; waits and get-run calls are in bijection. -/
theorem runPoller_fixed_interval_single_poll (status : String) (oracle : List String)
    (h : ∃ s ∈ status :: oracle, isActive s = false) :
    ∃ tr fin, pollLoop status oracle = some (tr, fin) ∧
      isActive fin = false ∧
      ((status :: oracle).dropWhile (fun s => isActive s)).head? = some fin ∧
      tr = ((oracle.take (((status :: oracle).takeWhile (fun s => isActive s)).length)).map
              pollBlock).flatten ∧
      tr.count Event.sleep = tr.count Event.getRun := by
  have aux := pollLoop_spec_aux oracle status h
  have hne : (status :: oracle).dropWhile (fun s => isActive s) ≠ [] := by
    intro hnil
    rcases h with ⟨x, hx, hxf⟩
    have hall := List.dropWhile_eq_nil_iff.mp hnil
    rw [hall x hx] at hxf
    cases hxf
  rcases List.exists_cons_of_ne_nil hne with ⟨a, l, hal⟩
  have hfin : (((status :: oracle).dropWhile (fun s => isActive s)).headD status) = a := by
    rw [hal]; rfl
  have hha := List.head?_dropWhile_not (fun s => isActive s) (status :: oracle)
  rw [hal] at hha
  simp only [List.head?_cons] at hha
  refine ⟨_, _, aux, ?_, ?_, rfl, ?_⟩
  · rw [hfin]; exact hha
  · rw [hfin, hal]; rfl
  · rw [count_sleep_pollBlocks, count_getRun_pollBlocks]

/-- Witness for C1 at the observation sequence
queued, in_progress, completed. -/
theorem runPoller_fixed_interval_single_poll_witness :
    ∃ tr fin, pollLoop "queued" ["in_progress", "completed"] = some (tr, fin) ∧
      isActive fin = false ∧
      ((["queued", "in_progress", "completed"]).dropWhile (fun s => isActive s)).head? =
        some fin ∧
      tr = (((["in_progress", "completed"] : List String).take
              (((["queued", "in_progress", "completed"] : List String).takeWhile
                 (fun s => isActive s)).length)).map pollBlock).flatten ∧
      tr.count Event.sleep = tr.count Event.getRun :=
  runPoller_fixed_interval_single_poll "queued" ["in_progress", "completed"] (by decide)

/-- C9: If the status returned by run creation is already terminal, the Run
Poller performs zero waits and zero get-run calls: its trace is empty and the
final status is the initially returned one, never re-fetched. -/
theorem runPoller_zero_polls_when_initially_terminal (status : String)
    (oracle : List String) (h : isActive status = false) :
    pollLoop status oracle = some ([], status) :=
  pollLoop_inactive status oracle h

/-- Witness for C9: a run created already `completed` triggers no poll even
when the oracle could answer one. -/
theorem runPoller_zero_polls_when_initially_terminal_witness :
    pollLoop "completed" ["queued"] = some ([], "completed") :=
  runPoller_zero_polls_when_initially_terminal "completed" ["queued"] (by decide)

/-! ## Claims about the Transcript Collector's printed output -/

/-- C6: For every Message sequence retrieved in ascending creation order, the
printing loop emits, for each message that has at least one text segment, one
print of the message's role paired with its last text segment, in message
order; every message with no text segment contributes nothing (and no error
occurs — the loop is total). -/
theorem transcriptCollector_prints_last_segment (msgs : List Msg) :
    messagesLoop msgs = msgs.filterMap fun m =>
      (m.text_messages.getLast?).map fun t => Event.print (m.role ++ ": " ++ t) := by
  induction msgs with
  | nil => rfl
  | cons m rest ih =>
    cases htm : m.text_messages with
    | nil =>
      rw [messagesLoop]
      rw [if_pos (by rw [htm]; rfl)]
      rw [List.filterMap_cons]
      rw [htm]
      simpa using ih
    | cons t ts =>
      rw [messagesLoop]
      rw [if_neg (by rw [htm]; simp)]
      rw [List.filterMap_cons]
      rw [htm]
      have hsome : (t :: ts).getLast? = some ((t :: ts).getLastD "") := by
        cases hgl : (t :: ts).getLast? with
        | none => exact absurd (List.getLast?_eq_none_iff.mp hgl) (by simp)
        | some y => simp [List.getLastD_eq_getLast?, hgl]
      rw [hsome]
      simp only [Option.map_some']
      rw [ih]

/-! ## Claims about the environment-variable setup -/

/-- C10: Both tracing scripts unconditionally assign `"true"` to the
content-recording feature flag at startup; whatever the inherited environment
bound it to (including nothing), the effective environment afterwards maps
the flag to `"true"`, so generated-content recording is always enabled. -/
theorem contentRecordingFlag_forced_true (env : List (String × String)) :
    getenv (tracingStartupEnv env) contentFlag = some "true" ∧
    getenv (langgraphStartupEnv env) contentFlag = some "true" := by
  constructor <;>
    simp [tracingStartupEnv, langgraphStartupEnv, envSet, getenv]

/-! ## Claims about the telemetry-connection-string check -/

/-- C5: In both telemetry-dependent workflows, a falsy connection string
makes the process print the instructional message and exit immediately: the
whole trace is the startup assignment, the endpoint read, the
connection-string fetch and the instructional print — in particular no Agent
creation, no graph/model setup and no telemetry-export configuration ever
happens. -/
theorem telemetryAbsent_exits_before_agent_creation (w : TraceWorld) (g : GraphWorld)
    (hw : falsyConnStr w.connStr = true) (hg : falsyConnStr g.connStr = true) :
    tracingScript w =
      some ([Event.setEnv contentFlag "true",
             Event.envRead "AZURE_AI_FOUNDRY_PROJECT_ENDPOINT",
             Event.getConnectionString, Event.print appInsightsMsg],
            ScriptResult.exited) ∧
    langgraphScript g =
      ([Event.setEnv contentFlag "true",
        Event.envRead "AZURE_AI_FOUNDRY_PROJECT_ENDPOINT",
        Event.getConnectionString, Event.print appInsightsMsg],
       ScriptResult.exited) ∧
    Event.createAgent ∉ scriptTrace (tracingScript w) ∧
    Event.configureMonitor ∉ scriptTrace (tracingScript w) ∧
    Event.configureMonitor ∉ (langgraphScript g).1 ∧
    Event.modelInit ∉ (langgraphScript g).1 ∧
    Event.setupGraph ∉ (langgraphScript g).1 := by
  refine ⟨?_, ?_, ?_, ?_, ?_, ?_, ?_⟩ <;>
    simp [tracingScript, langgraphScript, hw, hg, scriptTrace]

/-- Witness for C5 at concrete worlds with an absent connection string. -/
theorem telemetryAbsent_exits_before_agent_creation_witness :
    tracingScript traceWorldNoTelemetry =
      some ([Event.setEnv contentFlag "true",
             Event.envRead "AZURE_AI_FOUNDRY_PROJECT_ENDPOINT",
             Event.getConnectionString, Event.print appInsightsMsg],
            ScriptResult.exited) ∧
    langgraphScript graphWorldNoTelemetry =
      ([Event.setEnv contentFlag "true",
        Event.envRead "AZURE_AI_FOUNDRY_PROJECT_ENDPOINT",
        Event.getConnectionString, Event.print appInsightsMsg],
       ScriptResult.exited) ∧
    Event.createAgent ∉ scriptTrace (tracingScript traceWorldNoTelemetry) ∧
    Event.configureMonitor ∉ scriptTrace (tracingScript traceWorldNoTelemetry) ∧
    Event.configureMonitor ∉ (langgraphScript graphWorldNoTelemetry).1 ∧
    Event.modelInit ∉ (langgraphScript graphWorldNoTelemetry).1 ∧
    Event.setupGraph ∉ (langgraphScript graphWorldNoTelemetry).1 :=
  telemetryAbsent_exits_before_agent_creation traceWorldNoTelemetry
    graphWorldNoTelemetry (by decide) (by decide)

/-! ## Claims about failed Runs -/

/-- C4: When a Run reaches terminal status `failed`, both agent workflows
print the attached error detail and continue to the subsequent stages —
message listing (and, in the evaluation script, data preparation, evaluation
and cleanup) — terminating normally rather than raising a local exception. -/
theorem failedRun_reported_and_workflow_continues
    (w : EvalWorld) (v : TraceWorld) (pe qe : List Event)
    (dmd dsv dk dcg : String)
    (hmd : getenv w.env "AZURE_OPENAI_MODEL_DEPLOYMENT" = some dmd)
    (hsv : getenv w.env "AZURE_OPENAI_SERVICE" = some dsv)
    (hk : getenv w.env "AZURE_OPENAI_API_KEY" = some dk)
    (hcg : getenv w.env "AZURE_OPENAI_CHATGPT_DEPLOYMENT" = some dcg)
    (hp : pollLoop w.createdStatus w.statusOracle = some (pe, "failed"))
    (hv : falsyConnStr v.connStr = false)
    (hq : pollLoop v.createdStatus v.statusOracle = some (qe, "failed")) :
    scriptResult (evaluateScript w) = some ScriptResult.ok ∧
    Event.print ("Run error: " ++ w.lastError) ∈ scriptTrace (evaluateScript w) ∧
    Event.listMessages ∈ scriptTrace (evaluateScript w) ∧
    Event.prepareEvalData ∈ scriptTrace (evaluateScript w) ∧
    Event.evaluateCall ∈ scriptTrace (evaluateScript w) ∧
    Event.deleteAgent ∈ scriptTrace (evaluateScript w) ∧
    scriptResult (tracingScript v) = some ScriptResult.ok ∧
    Event.print ("Run error: " ++ v.lastError) ∈ scriptTrace (tracingScript v) ∧
    Event.deleteAgent ∈ scriptTrace (tracingScript v) ∧
    Event.listMessages ∈ scriptTrace (tracingScript v) := by
  refine ⟨?_, ?_, ?_, ?_, ?_, ?_, ?_, ?_, ?_, ?_⟩ <;>
    simp [evaluateScript, tracingScript, scriptTrace, scriptResult,
      hmd, hsv, hk, hcg, hp, hv, hq]

/-- Witness for C4 at concrete worlds whose Runs fail. -/
theorem failedRun_reported_and_workflow_continues_witness :
    scriptResult (evaluateScript evalWorldFailed) = some ScriptResult.ok ∧
    Event.print ("Run error: " ++ evalWorldFailed.lastError) ∈
      scriptTrace (evaluateScript evalWorldFailed) ∧
    Event.listMessages ∈ scriptTrace (evaluateScript evalWorldFailed) ∧
    Event.prepareEvalData ∈ scriptTrace (evaluateScript evalWorldFailed) ∧
    Event.evaluateCall ∈ scriptTrace (evaluateScript evalWorldFailed) ∧
    Event.deleteAgent ∈ scriptTrace (evaluateScript evalWorldFailed) ∧
    scriptResult (tracingScript traceWorldFailed) = some ScriptResult.ok ∧
    Event.print ("Run error: " ++ traceWorldFailed.lastError) ∈
      scriptTrace (tracingScript traceWorldFailed) ∧
    Event.deleteAgent ∈ scriptTrace (tracingScript traceWorldFailed) ∧
    Event.listMessages ∈ scriptTrace (tracingScript traceWorldFailed) :=
  failedRun_reported_and_workflow_continues evalWorldFailed traceWorldFailed
    [Event.sleep, Event.getRun, Event.print ("Run status: " ++ "failed")]
    [Event.sleep, Event.getRun, Event.print ("Run status: " ++ "failed")]
    "gpt" "svc" "key" "chat" (by decide) (by decide) (by decide) (by decide)
    (by decide) (by decide) (by decide)

/-! ## Claims about the model configuration -/

theorem pollLoop_not_evaluateCall {status : String} {oracle : List String}
    {tr : List Event} {fin : String}
    (h : pollLoop status oracle = some (tr, fin)) : Event.evaluateCall ∉ tr := by
  intro hmem
  rcases pollLoop_events h _ hmem with h' | h' | ⟨s, h'⟩ <;> cases h'

theorem pollLoop_not_deleteAgent {status : String} {oracle : List String}
    {tr : List Event} {fin : String}
    (h : pollLoop status oracle = some (tr, fin)) : Event.deleteAgent ∉ tr := by
  intro hmem
  rcases pollLoop_events h _ hmem with h' | h' | ⟨s, h'⟩ <;> cases h'

theorem messagesLoop_not_evaluateCall (msgs : List Msg) :
    Event.evaluateCall ∉ messagesLoop msgs := by
  intro hmem
  rcases messagesLoop_events msgs _ hmem with ⟨s, h'⟩
  cases h'

theorem messagesLoop_not_deleteAgent (msgs : List Msg) :
    Event.deleteAgent ∉ messagesLoop msgs := by
  intro hmem
  rcases messagesLoop_events msgs _ hmem with ⟨s, h'⟩
  cases h'

/-- Counterexample to C3 as stated: with `AZURE_OPENAI_SERVICE` absent, the
evaluation script does fail with a missing-key error for it, but only after
remote calls (agent creation, run creation) have already been made — not
"before any remote calls". -/
theorem configMissing_after_remote_calls_counterexample :
    scriptResult (evaluateScript evalWorldNoService) =
      some (ScriptResult.keyError "AZURE_OPENAI_SERVICE") ∧
    Event.createAgent ∈ scriptTrace (evaluateScript evalWorldNoService) ∧
    Event.createRun ∈ scriptTrace (evaluateScript evalWorldNoService) ∧
    Event.prepareEvalData ∈ scriptTrace (evaluateScript evalWorldNoService) := by
  decide

/-- C3 (amended): if any of the three required model-configuration
environment values for the Evaluation Pipeline is absent, the evaluation
script fails with a missing-key error naming one of them, raised at
model-configuration construction — before the `evaluate` call, hence before
any evaluator runs, and eagerly for the whole configuration rather than
lazily per evaluator — but only after the agent workflow's earlier remote
calls, not before all remote calls. -/
theorem configMissing_fails_before_evaluation
    (w : EvalWorld) (dmd : String) (pe : List Event) (fin : String)
    (hmd : getenv w.env "AZURE_OPENAI_MODEL_DEPLOYMENT" = some dmd)
    (hp : pollLoop w.createdStatus w.statusOracle = some (pe, fin))
    (hmiss : getenv w.env "AZURE_OPENAI_SERVICE" = none ∨
             getenv w.env "AZURE_OPENAI_API_KEY" = none ∨
             getenv w.env "AZURE_OPENAI_CHATGPT_DEPLOYMENT" = none) :
    ∃ name, name ∈ ["AZURE_OPENAI_SERVICE", "AZURE_OPENAI_API_KEY",
                    "AZURE_OPENAI_CHATGPT_DEPLOYMENT"] ∧
      scriptResult (evaluateScript w) = some (ScriptResult.keyError name) ∧
      Event.evaluateCall ∉ scriptTrace (evaluateScript w) := by
  have hpe := pollLoop_not_evaluateCall hp
  have hml := messagesLoop_not_evaluateCall w.msgs
  by_cases hf : fin = "failed"
  all_goals cases hsv : getenv w.env "AZURE_OPENAI_SERVICE" with
  | none =>
    refine ⟨"AZURE_OPENAI_SERVICE", by simp, ?_, ?_⟩ <;>
      simp [evaluateScript, scriptResult, scriptTrace, hmd, hp, hsv, hf, hpe, hml]
  | some dsv =>
    cases hk : getenv w.env "AZURE_OPENAI_API_KEY" with
    | none =>
      refine ⟨"AZURE_OPENAI_API_KEY", by simp, ?_, ?_⟩ <;>
        simp [evaluateScript, scriptResult, scriptTrace, hmd, hp, hsv, hk, hf, hpe, hml]
    | some dk =>
      cases hcg : getenv w.env "AZURE_OPENAI_CHATGPT_DEPLOYMENT" with
      | none =>
        refine ⟨"AZURE_OPENAI_CHATGPT_DEPLOYMENT", by simp, ?_, ?_⟩ <;>
          simp [evaluateScript, scriptResult, scriptTrace, hmd, hp, hsv, hk, hcg,
            hf, hpe, hml]
      | some dcg =>
        rcases hmiss with h | h | h
        · rw [hsv] at h; cases h
        · rw [hk] at h; cases h
        · rw [hcg] at h; cases h

/-- Witness for the amended C3 at a concrete world lacking
`AZURE_OPENAI_SERVICE`. -/
theorem configMissing_fails_before_evaluation_witness :
    ∃ name, name ∈ ["AZURE_OPENAI_SERVICE", "AZURE_OPENAI_API_KEY",
                    "AZURE_OPENAI_CHATGPT_DEPLOYMENT"] ∧
      scriptResult (evaluateScript evalWorldNoService) =
        some (ScriptResult.keyError name) ∧
      Event.evaluateCall ∉ scriptTrace (evaluateScript evalWorldNoService) :=
  configMissing_fails_before_evaluation evalWorldNoService "gpt" [] "completed"
    (by decide) (by decide) (Or.inl (by decide))

/-- Counterexample to C2 as stated: in `tracing-example-ai-agent-service.py`
the agent is deleted at line 106, before the message listing of lines
110-114, so deletion is not at workflow end — a later remote call
(`messages.list`) follows it, and the last remote event of the trace is the
message listing, not the deletion. -/
theorem agentDeletion_not_last_remote_counterexample :
    ((scriptTrace (tracingScript traceWorldCompleted)).filter
        (fun e => isRemoteEvent e)).getLast? = some Event.listMessages ∧
    Event.deleteAgent ∈ scriptTrace (tracingScript traceWorldCompleted) := by
  decide

theorem getLast?_append_right {α : Type} (l₁ : List α) {l₂ : List α} {a : α}
    (h : l₂.getLast? = some a) : (l₁ ++ l₂).getLast? = some a := by
  rw [List.getLast?_append, h]
  rfl

theorem getLast?_cons_right {α : Type} (x : α) {l : List α} {a : α}
    (h : l.getLast? = some a) : (x :: l).getLast? = some a := by
  have hxl : x :: l = [x] ++ l := rfl
  rw [hxl]
  exact getLast?_append_right [x] h

/-- C2 (amended): for every terminal Run outcome, each workflow calls
delete-agent on the created Agent exactly once before process exit, and
deletion is unconditional on Run success; in the evaluation script the
deletion is additionally the last remote call, while in the tracing script
the message-listing stage still follows it. -/
theorem agentDeleted_exactly_once
    (w : EvalWorld) (v : TraceWorld) (pe qe : List Event) (pf qf : String)
    (dmd dsv dk dcg : String)
    (hmd : getenv w.env "AZURE_OPENAI_MODEL_DEPLOYMENT" = some dmd)
    (hsv : getenv w.env "AZURE_OPENAI_SERVICE" = some dsv)
    (hk : getenv w.env "AZURE_OPENAI_API_KEY" = some dk)
    (hcg : getenv w.env "AZURE_OPENAI_CHATGPT_DEPLOYMENT" = some dcg)
    (hp : pollLoop w.createdStatus w.statusOracle = some (pe, pf))
    (hv : falsyConnStr v.connStr = false)
    (hq : pollLoop v.createdStatus v.statusOracle = some (qe, qf)) :
    (scriptTrace (evaluateScript w)).count Event.deleteAgent = 1 ∧
    scriptResult (evaluateScript w) = some ScriptResult.ok ∧
    ((scriptTrace (evaluateScript w)).filter (fun e => isRemoteEvent e)).getLast? =
      some Event.deleteAgent ∧
    (scriptTrace (tracingScript v)).count Event.deleteAgent = 1 ∧
    scriptResult (tracingScript v) = some ScriptResult.ok := by
  have hw1 := List.count_eq_zero.mpr (pollLoop_not_deleteAgent hp)
  have hw2 := List.count_eq_zero.mpr (messagesLoop_not_deleteAgent w.msgs)
  have hv1 := List.count_eq_zero.mpr (pollLoop_not_deleteAgent hq)
  have hv2 := List.count_eq_zero.mpr (messagesLoop_not_deleteAgent v.msgs)
  refine ⟨?_, ?_, ?_, ?_, ?_⟩
  · by_cases hf : pf = "failed" <;>
      simp [evaluateScript, scriptTrace, hmd, hsv, hk, hcg, hp, hf,
        List.count_append, hw1, hw2, List.count_cons]
  · simp [evaluateScript, scriptResult, hmd, hsv, hk, hcg, hp]
  · by_cases hf : pf = "failed" <;>
      simp [evaluateScript, scriptTrace, hmd, hsv, hk, hcg, hp, hf,
        List.filter_append, isRemoteEvent] <;>
      exact getLast?_cons_right _ (getLast?_append_right _
        (getLast?_cons_right _ (getLast?_append_right _ rfl)))
  · by_cases hf : qf = "failed" <;>
      simp [tracingScript, scriptTrace, hv, hq, hf,
        List.count_append, hv1, hv2, List.count_cons]
  · simp [tracingScript, scriptResult, hv, hq]

/-- Witness for the amended C2 at a failed-Run evaluation world and a
completed-Run tracing world. -/
theorem agentDeleted_exactly_once_witness :
    (scriptTrace (evaluateScript evalWorldFailed)).count Event.deleteAgent = 1 ∧
    scriptResult (evaluateScript evalWorldFailed) = some ScriptResult.ok ∧
    ((scriptTrace (evaluateScript evalWorldFailed)).filter
        (fun e => isRemoteEvent e)).getLast? = some Event.deleteAgent ∧
    (scriptTrace (tracingScript traceWorldCompleted)).count Event.deleteAgent = 1 ∧
    scriptResult (tracingScript traceWorldCompleted) = some ScriptResult.ok :=
  agentDeleted_exactly_once evalWorldFailed traceWorldCompleted
    [Event.sleep, Event.getRun, Event.print ("Run status: " ++ "failed")]
    [Event.sleep, Event.getRun, Event.print ("Run status: " ++ "completed")]
    "failed" "completed" "gpt" "svc" "key" "chat"
    (by decide) (by decide) (by decide) (by decide) (by decide) (by decide) (by decide)

/-! ## Claims about the persisted transcript file -/

/-- C7: the persisted transcript file is exactly one JSON-serialized record
per line in conversation order — the file is the concatenation, in record
order, of each record's serialization followed by one newline, and no
serialization contains a newline — and the encoding preserves every
non-ASCII character of the records literally (no ASCII-safe escaping). -/
theorem transcriptFile_one_record_per_line_preserves_nonAscii (records : List JVal) :
    writeLoop records = (records.map fun r => dumps r ++ ['\n']).flatten ∧
    (∀ r ∈ records, ∀ c ∈ dumps r, c ≠ '\n') ∧
    (∀ r ∈ records, ∀ c ∈ strChars r, 128 ≤ c.toNat → c ∈ dumps r) := by
  refine ⟨writeLoop_eq_flatten records, ?_, ?_⟩
  · intro r _ c hc
    exact dumps_ne_newline r c hc
  · intro r _ c hc h
    exact strChars_mem_dumps r c hc h

/-- Witness for C7 at a one-record transcript holding the non-ASCII
character `é`. -/
theorem transcriptFile_one_record_per_line_preserves_nonAscii_witness :
    writeLoop [JVal.str "é"] =
      (([JVal.str "é"] : List JVal).map fun r => dumps r ++ ['\n']).flatten ∧
    'é' ∈ dumps (JVal.str "é") :=
  ⟨(transcriptFile_one_record_per_line_preserves_nonAscii [JVal.str "é"]).1,
   (transcriptFile_one_record_per_line_preserves_nonAscii [JVal.str "é"]).2.2
     (JVal.str "é") (List.mem_singleton_self _) 'é' (by decide) (by decide)⟩

/-! ## Claims about the Evaluation Pipeline -/

/-- C8: running the Evaluation Pipeline twice on the same unchanged
transcript file with the same unchanged evaluator set yields the same metric
mapping, under the hypothesis that every evaluator is deterministic. -/
theorem evaluationPipeline_deterministic_idempotent {α : Type}
    (file : List JVal) (evaluators : List (String × (List JVal → α → Prop)))
    (r₁ r₂ : List (String × α))
    (hdet : ∀ p ∈ evaluators, DeterministicEvaluator p.2)
    (h₁ : PipelineRun file evaluators r₁) (h₂ : PipelineRun file evaluators r₂) :
    r₁ = r₂ := by
  unfold PipelineRun at h₁ h₂
  induction h₁ generalizing r₂ with
  | nil =>
    cases h₂
    rfl
  | @cons a b l₁ l₂ hab htl ih =>
    cases h₂ with
    | @cons _ b2 _ r₂tl hab2 htl2 =>
      obtain ⟨hn1, hv1⟩ := hab
      obtain ⟨hn2, hv2⟩ := hab2
      have hdethd := hdet _ (List.mem_cons_self _ _)
      have hmeq : b.2 = b2.2 := hdethd file _ _ hv1 hv2
      have hbeq : b = b2 := Prod.ext (hn1.trans hn2.symm) hmeq
      rw [hbeq, ih r₂tl (fun p hp => hdet p (List.mem_cons_of_mem _ hp)) htl2]

/-- Witness for C8 with one deterministic evaluator under the source's
`tool_call_accuracy` name. -/
theorem evaluationPipeline_deterministic_idempotent_witness :
    ([("tool_call_accuracy", (0 : Int))] : List (String × Int)) =
      [("tool_call_accuracy", 0)] :=
  evaluationPipeline_deterministic_idempotent
    [] [("tool_call_accuracy", fun _ m => m = 0)]
    [("tool_call_accuracy", 0)] [("tool_call_accuracy", 0)]
    (fun p hp => by
      have hp' := List.mem_singleton.mp hp
      subst hp'
      intro d m₁ m₂ h1 h2
      exact h1.trans h2.symm)
    (List.Forall₂.cons ⟨rfl, rfl⟩ List.Forall₂.nil)
    (List.Forall₂.cons ⟨rfl, rfl⟩ List.Forall₂.nil)

end Observability
